import Mathlib

/-!
Verification of the pane state & priority engine of claude-tmux-hop.

The Python modules `priority.py`, `tmux.py` and the cycle-selection step of
`cli.py` are shallowly embedded below.  Python `int` values are modelled by
`Int`, Python strings by `String`, and Python `sorted` (a stable sort) by
`List.insertionSort`, the canonical stable sort, which agrees extensionally
with any stable sort for the total preorder keys used here.
-/

namespace ClaudeTmuxHop

/-! ### Python string primitives -/

/-- Characters for which Python `str.isspace()` is true: ASCII whitespace,
the C1 controls `\x1c`-`\x1f`, `\x85`, and the Unicode space separators
(categories Zs, Zl, Zp). -/
def pyIsSpace (c : Char) : Bool :=
  c = ' ' || c = '\t' || c = '\n' || c = '\x0b' || c = '\x0c' || c = '\r' ||
  c = '\x1c' || c = '\x1d' || c = '\x1e' || c = '\x1f' || c = '\x85' || c = '\xa0' ||
  c = '\u1680' || ('\u2000' ≤ c && c ≤ '\u200a') || c = '\u2028' || c = '\u2029' ||
  c = '\u202f' || c = '\u205f' || c = '\u3000'

/-- Line boundaries recognised by Python `str.splitlines()` (besides `\r\n`). -/
def isLineBreak (c : Char) : Bool :=
  c = '\n' || c = '\r' || c = '\x0b' || c = '\x0c' ||
  c = '\x1c' || c = '\x1d' || c = '\x1e' || c = '\x85' ||
  c = '\u2028' || c = '\u2029'

/-- Worker for `pySplitlines`; `acc` holds the current line reversed and
`skipLf` records that the previously consumed break was `\r`, so that a
directly following `\n` belongs to the same `\r\n` boundary. -/
def pySplitlinesAux : List Char → List Char → Bool → List String
  | [], acc, _ => if acc.isEmpty then [] else [String.mk acc.reverse]
  | c :: rest, acc, skipLf =>
    if skipLf && c = '\n' then pySplitlinesAux rest acc false
    else if isLineBreak c then
      String.mk acc.reverse :: pySplitlinesAux rest [] (c = '\r')
    else pySplitlinesAux rest (c :: acc) false

/-- Python `str.splitlines()`: no trailing empty line for a trailing break. -/
def pySplitlines (s : String) : List String :=
  pySplitlinesAux s.data [] false

/-- Python `str.strip()` with no argument: remove leading and trailing
whitespace characters. -/
def pyStrip (s : String) : String :=
  String.mk (((s.data.dropWhile pyIsSpace).reverse.dropWhile pyIsSpace).reverse)

/-! ### Dialog detection constants and heuristic (tmux.py) -/

/-- Claude Code input prompt / Ink selection cursor (U+276F). -/
def PROMPT_CHAR : Char := '❯'

/-- Box drawing character in the status bar separator (U+2500). -/
def STATUS_SEPARATOR : Char := '─'

/-- Seconds before checking a "waiting" pane. -/
def WAITING_STALE_THRESHOLD : Int := 3

/-- `_is_separator_line`: the stripped line is non-empty and consists only of
the separator glyph. -/
def is_separator_line (stripped : String) : Bool :=
  !stripped.isEmpty && stripped.data.all (fun c => c = STATUS_SEPARATOR)

/-- Pattern-first starts-with test on character lists
(Python `str.startswith`). -/
def startsWithChars : List Char → List Char → Bool
  | [], _ => true
  | _ :: _, [] => false
  | p :: ps, c :: cs => p = c && startsWithChars ps cs

/-- The prompt test of `has_active_dialog`:
`stripped == PROMPT_CHAR or stripped.startswith(f"{PROMPT_CHAR} ")`. -/
def isPromptLine (stripped : String) : Bool :=
  stripped = String.mk [PROMPT_CHAR] ||
  startsWithChars [PROMPT_CHAR, ' '] stripped.data

/-- The bottom-up scanning loop of `has_active_dialog` over the reversed line
list; the flag records whether a separator line has been passed. -/
def scanDialog : List String → Bool → Bool
  | [], _ => true
  | line :: rest, foundSep =>
    let stripped := pyStrip line
    if stripped.isEmpty then scanDialog rest foundSep
    else if is_separator_line stripped then scanDialog rest true
    else if foundSep then !(isPromptLine stripped)
    else scanDialog rest foundSep

/-- `has_active_dialog` (tmux.py lines 455-501): conservative `true` for
empty/whitespace-only content, otherwise the bottom-up scan. -/
def has_active_dialog (content : String) : Bool :=
  if content.isEmpty || (pyStrip content).isEmpty then true
  else scanDialog (pySplitlines content).reverse false

/-- The decisive line as the spec describes it: scanning bottom-up and
skipping blank lines, once a separator line is found, the first non-blank
non-separator line above it (stripped). -/
def findDecisive : List String → Bool → Option String
  | [], _ => none
  | line :: rest, foundSep =>
    let stripped := pyStrip line
    if stripped.isEmpty then findDecisive rest foundSep
    else if is_separator_line stripped then findDecisive rest true
    else if foundSep then some stripped
    else findDecisive rest foundSep

/-- The decisive line of a captured content string, when one exists. -/
def decisiveLine (content : String) : Option String :=
  findDecisive (pySplitlines content).reverse false

/-! ### Pane model (tmux.py, dataclass PaneInfo) -/

/-- `PaneInfo`: information about a tmux pane with hop state. -/
structure PaneInfo where
  id : String
  state : String
  timestamp : Int
  cwd : String
  session : String
  window : Int
deriving DecidableEq

/-! ### priority.py -/

/-- `STATE_PRIORITY` dictionary lookup (lower = higher priority). -/
def STATE_PRIORITY (state : String) : Option Int :=
  if state = "waiting" then some 0
  else if state = "idle" then some 1
  else if state = "active" then some 2
  else none

/-- The three buckets built by `group_by_state`. -/
structure StateGroups where
  waiting : List PaneInfo
  idle : List PaneInfo
  active : List PaneInfo
deriving DecidableEq

/-- `group_by_state` (priority.py lines 26-52): each pane is appended to the
bucket of its state, unknown states to the `active` bucket; recursion on the
tail preserves the loop's append order per bucket. -/
def group_by_state : List PaneInfo → StateGroups
  | [] => ⟨[], [], []⟩
  | p :: rest =>
    let g := group_by_state rest
    if p.state = "waiting" then ⟨p :: g.waiting, g.idle, g.active⟩
    else if p.state = "idle" then ⟨g.waiting, p :: g.idle, g.active⟩
    else ⟨g.waiting, g.idle, p :: g.active⟩

/-- Ascending timestamp comparison: `sorted(panes, key=lambda p: p.timestamp)`. -/
def leTs (a b : PaneInfo) : Prop := a.timestamp ≤ b.timestamp

/-- Descending timestamp comparison: `sorted(panes, key=lambda p: -p.timestamp)`. -/
def leNegTs (a b : PaneInfo) : Prop := -a.timestamp ≤ -b.timestamp

instance : DecidableRel leTs := fun a b => Int.decLe a.timestamp b.timestamp

instance : DecidableRel leNegTs := fun a b => Int.decLe (-a.timestamp) (-b.timestamp)

instance : IsTotal PaneInfo leTs := ⟨fun a b => Int.le_total a.timestamp b.timestamp⟩

instance : IsTrans PaneInfo leTs := ⟨fun _ _ _ h1 h2 => le_trans h1 h2⟩

instance : IsTotal PaneInfo leNegTs := ⟨fun a b => Int.le_total (-a.timestamp) (-b.timestamp)⟩

instance : IsTrans PaneInfo leNegTs := ⟨fun _ _ _ h1 h2 => le_trans h1 h2⟩

/-- `sort_within_group` (priority.py lines 55-73); Python `sorted` is stable,
modelled by the stable `List.insertionSort`. -/
def sort_within_group (panes : List PaneInfo) (state : String) : List PaneInfo :=
  if state = "waiting" then List.insertionSort leTs panes
  else List.insertionSort leNegTs panes

/-- `get_cycle_group` (priority.py lines 76-110). -/
def get_cycle_group (panes : List PaneInfo) (mode : String) : List PaneInfo :=
  let groups := group_by_state panes
  if mode = "flat" then
    (if !groups.waiting.isEmpty then sort_within_group groups.waiting "waiting" else []) ++
    (if !groups.idle.isEmpty then sort_within_group groups.idle "idle" else []) ++
    (if !groups.active.isEmpty then sort_within_group groups.active "active" else [])
  else
    if !groups.waiting.isEmpty then sort_within_group groups.waiting "waiting"
    else if !groups.idle.isEmpty then sort_within_group groups.idle "idle"
    else if !groups.active.isEmpty then sort_within_group groups.active "active"
    else []

/-- The sort key of `sort_all_panes`:
`(STATE_PRIORITY.get(state, 2), ts if waiting else -ts)`. -/
def sort_key (p : PaneInfo) : Int × Int :=
  ((STATE_PRIORITY p.state).getD 2,
   if p.state = "waiting" then p.timestamp else -p.timestamp)

/-- Python tuple comparison `sort_key a <= sort_key b` on the 2-element keys. -/
def leKey (a b : PaneInfo) : Prop :=
  (sort_key a).1 < (sort_key b).1 ∨
  ((sort_key a).1 = (sort_key b).1 ∧ (sort_key a).2 ≤ (sort_key b).2)

instance : DecidableRel leKey := fun a b => by
  unfold leKey
  exact instDecidableOr

/-- `sort_all_panes` (priority.py lines 113-129): stable sort by `sort_key`. -/
def sort_all_panes (panes : List PaneInfo) : List PaneInfo :=
  List.insertionSort leKey panes

/-! ### tmux.py: bulk-query record parsing (get_hop_panes) -/

/-- Digit-string value with Python underscore grouping rules: the flag records
whether the previous character was a digit (so an underscore is allowed). -/
def pyDigitsAux : List Char → Nat → Bool → Option Nat
  | [], acc, prevDigit => if prevDigit then some acc else none
  | c :: rest, acc, prevDigit =>
    if c.isDigit then pyDigitsAux rest (acc * 10 + (c.toNat - 48)) true
    else if c = '_' && prevDigit then pyDigitsAux rest acc false
    else none

/-- Python `int(s)` for decimal ASCII strings: surrounding whitespace is
stripped, an optional single sign is allowed, then digits with Python's
underscore grouping (an underscore must sit between two digits).
(Non-ASCII decimal digits, which Python also accepts, do not occur in tmux
output and are modelled as failures.) -/
def pyInt (s : String) : Option Int :=
  match (pyStrip s).data with
  | [] => none
  | c :: rest =>
    if c = '+' then (pyDigitsAux rest 0 false).map Int.ofNat
    else if c = '-' then (pyDigitsAux rest 0 false).map (fun n => -(Int.ofNat n))
    else (pyDigitsAux (c :: rest) 0 false).map Int.ofNat

/-- The try/except block of `get_hop_panes` (tmux.py lines 331-336):
`timestamp = int(timestamp_str) if timestamp_str else 0` and
`window = int(window_str) if window_str else 0`, with a single
`except ValueError` that sets BOTH to 0. -/
def parse_ts_window (timestamp_str window_str : String) : Int × Int :=
  match (if timestamp_str.isEmpty then some 0 else pyInt timestamp_str) with
  | none => (0, 0)
  | some t =>
    match (if window_str.isEmpty then some 0 else pyInt window_str) with
    | none => (0, 0)
    | some w => (t, w)

/-- The per-record step of the `get_hop_panes` loop (tmux.py lines 317-347),
applied to one already-split 6-field record; `running` is
`running_pane_ids` (`none` models Python `None`, i.e. `validate=False`). -/
def hop_record (running : Option (List String))
    (pane_id state timestamp_str cwd session window_str : String) : Option PaneInfo :=
  if state.isEmpty then none
  else if (match running with
           | some ids => decide (pane_id ∉ ids)
           | none => false) then none
  else
    some ⟨pane_id, state, (parse_ts_window timestamp_str window_str).1, cwd, session,
          (parse_ts_window timestamp_str window_str).2⟩

/-! ### tmux.py: validate_waiting_panes -/

/-- The external world seen by one invocation of `validate_waiting_panes`:
the time taken once at entry, the content capture per pane id
(`capture_pane_content` returns `""` on failure), and whether the
`set_pane_state` write for a pane id succeeds (or raises `RuntimeError`). -/
structure ValidateEnv where
  now : Int
  capture : String → String
  writeOk : String → Bool

/-- One iteration of the `validate_waiting_panes` loop (tmux.py lines
514-532) for a single pane: the (possibly mutated) pane together with the
pane ids for which a `set_pane_state` write was attempted.  On a raising
write the in-memory mutation is skipped by the `except` clause. -/
def validate_one (env : ValidateEnv) (p : PaneInfo) : PaneInfo × List String :=
  if p.state ≠ "waiting" then (p, [])
  else if env.now - p.timestamp < WAITING_STALE_THRESHOLD then (p, [])
  else if env.capture p.id = "" then (p, [])
  else if has_active_dialog (env.capture p.id) then (p, [])
  else if env.writeOk p.id then
    ({p with state := "idle", timestamp := env.now}, [p.id])
  else (p, [p.id])

/-- `validate_waiting_panes` (tmux.py lines 504-532): the updated pane list
(in-place mutation modelled positionally) and all attempted store writes. -/
def validate_waiting_panes (env : ValidateEnv) (panes : List PaneInfo) :
    List PaneInfo × List String :=
  (panes.map (fun p => (validate_one env p).1),
   (panes.map (fun p => (validate_one env p).2)).flatten)

/-! ### cli.py: cycle target selection (cmd_cycle) -/

/-- Python `list.index`: index of the first occurrence, if any. -/
def pyIndex (l : List String) (v : String) : Option Nat :=
  match l with
  | [] => none
  | x :: xs => if x = v then some 0 else (pyIndex xs v).map (fun n => n + 1)

/-- The next-pane selection of `cmd_cycle` (cli.py lines 205-215):
`ids.index(current)` is the first index whose id equals `current`; on
`ValueError` the index is 0. -/
def next_in_group (group : List PaneInfo) (current : String) : Option PaneInfo :=
  match pyIndex (group.map PaneInfo.id) current with
  | some idx => group[(idx + 1) % group.length]?
  | none => group[0]?

/-! ### Sample panes for concrete evaluations -/

def paneW : PaneInfo := ⟨"%4", "waiting", 100, "/tmp/a", "main", 1⟩

def paneW2 : PaneInfo := ⟨"%2", "waiting", 200, "/tmp/b", "main", 2⟩

def paneI : PaneInfo := ⟨"%3", "idle", 150, "/tmp/c", "dev", 1⟩

def paneA : PaneInfo := ⟨"%1", "active", 100, "/tmp/d", "dev", 2⟩

def paneU : PaneInfo := ⟨"%9", "mystery", 7, "/tmp/e", "ops", 3⟩

/-- Environment whose captures show an active dialog and whose writes succeed. -/
def envC6 : ValidateEnv := ⟨1000, fun _ => "pick an option\n──────\nstatus", fun _ => true⟩

/-- Environment whose captures show a dismissed prompt and whose writes fail. -/
def envC10 : ValidateEnv := ⟨1000, fun _ => "❯\n──────\nstatus", fun _ => false⟩

/-! ### Dialog heuristic lemmas -/

theorem scanDialog_eq_findDecisive (ls : List String) (fs : Bool) :
    scanDialog ls fs =
      match findDecisive ls fs with
      | none => true
      | some d => !(isPromptLine d) := by
  induction ls generalizing fs with
  | nil => rfl
  | cons line rest ih =>
    simp only [scanDialog, findDecisive]
    by_cases h1 : (pyStrip line).isEmpty
    · simp [h1, ih]
    · by_cases h2 : is_separator_line (pyStrip line)
      · simp [h1, h2, ih]
      · by_cases h3 : fs
        · simp [h1, h2, h3]
        · simp [h1, h2, h3, ih]

theorem findDecisive_eq_none_of_blank (ls : List String) (fs : Bool)
    (h : ∀ line ∈ ls, pyStrip line = "") : findDecisive ls fs = none := by
  induction ls generalizing fs with
  | nil => rfl
  | cons line rest ih =>
    have hl : pyStrip line = "" := h line (by simp)
    simp only [findDecisive, hl]
    simp only [String.isEmpty_iff, if_pos rfl]
    exact ih fs (fun l hm => h l (by simp [hm]))

theorem pySplitlinesAux_subset (cs : List Char) :
    ∀ (acc : List Char) (skipLf : Bool), ∀ line ∈ pySplitlinesAux cs acc skipLf,
      ∀ c ∈ line.data, c ∈ acc ∨ c ∈ cs := by
  induction cs with
  | nil =>
    intro acc skipLf line hline c hc
    by_cases hemp : acc.isEmpty
    · simp [pySplitlinesAux, hemp] at hline
    · simp only [pySplitlinesAux, if_neg hemp, List.mem_singleton] at hline
      subst hline
      left
      simpa using hc
  | cons c0 rest ih =>
    intro acc skipLf line hline c hc
    simp only [pySplitlinesAux] at hline
    by_cases h1 : (skipLf && decide (c0 = '\n')) = true
    · rw [if_pos h1] at hline
      rcases ih acc false line hline c hc with h | h
      · exact Or.inl h
      · exact Or.inr (List.mem_cons_of_mem _ h)
    · rw [if_neg h1] at hline
      by_cases h2 : isLineBreak c0 = true
      · rw [if_pos h2] at hline
        rcases List.mem_cons.mp hline with h | h
        · subst h
          left
          simpa using hc
        · rcases ih [] _ line h c hc with h3 | h3
          · simp at h3
          · exact Or.inr (List.mem_cons_of_mem _ h3)
      · rw [if_neg h2] at hline
        rcases ih (c0 :: acc) false line hline c hc with h | h
        · rcases List.mem_cons.mp h with h4 | h4
          · subst h4
            exact Or.inr (List.mem_cons_self c rest)
          · exact Or.inl h4
        · exact Or.inr (List.mem_cons_of_mem _ h)

theorem pyStrip_eq_empty_of_all (s : String) (h : ∀ c ∈ s.data, pyIsSpace c) :
    pyStrip s = "" := by
  unfold pyStrip
  have h1 : s.data.dropWhile pyIsSpace = [] := List.dropWhile_eq_nil_iff.mpr h
  rw [h1]
  rfl

theorem all_space_of_pyStrip_empty (s : String) (h : pyStrip s = "") :
    ∀ c ∈ s.data, pyIsSpace c := by
  have h0 : ((s.data.dropWhile pyIsSpace).reverse.dropWhile pyIsSpace).reverse = [] := by
    simpa [pyStrip] using congrArg String.data h
  rw [List.reverse_eq_nil_iff] at h0
  have h2 : ∀ a ∈ (s.data.dropWhile pyIsSpace).reverse, pyIsSpace a :=
    List.dropWhile_eq_nil_iff.mp h0
  have h3 : ∀ a ∈ s.data.dropWhile pyIsSpace, pyIsSpace a :=
    fun a ha => h2 a (List.mem_reverse.mpr ha)
  intro c hc
  rw [← List.takeWhile_append_dropWhile (p := pyIsSpace) (l := s.data)] at hc
  rcases List.mem_append.mp hc with h4 | h4
  · exact List.mem_takeWhile_imp h4
  · exact h3 c h4

theorem blank_lines_of_all_space (content : String) (h : ∀ c ∈ content.data, pyIsSpace c) :
    ∀ line ∈ pySplitlines content, pyStrip line = "" := by
  intro line hline
  apply pyStrip_eq_empty_of_all
  intro c hc
  rcases pySplitlinesAux_subset content.data [] false line hline c hc with h0 | h0
  · simp at h0
  · exact h c h0

theorem decisiveLine_eq_none_of_blank (content : String)
    (hb : content.isEmpty || (pyStrip content).isEmpty) : decisiveLine content = none := by
  have hblank : ∀ line ∈ pySplitlines content, pyStrip line = "" := by
    rw [Bool.or_eq_true] at hb
    rcases hb with h1 | h1
    · have hc : content = "" := (String.isEmpty_iff content).mp h1
      subst hc
      intro line hline
      simp [pySplitlines, pySplitlinesAux] at hline
    · exact blank_lines_of_all_space content
        (all_space_of_pyStrip_empty content ((String.isEmpty_iff _).mp h1))
  unfold decisiveLine
  exact findDecisive_eq_none_of_blank _ _ (fun l hm => hblank l (List.mem_reverse.mp hm))

theorem scanDialog_true_of_no_sep (ls : List String)
    (h : ∀ line ∈ ls, is_separator_line (pyStrip line) = false) :
    scanDialog ls false = true := by
  induction ls with
  | nil => rfl
  | cons line rest ih =>
    have hl : is_separator_line (pyStrip line) = false := h line (by simp)
    have hrest : ∀ l ∈ rest, is_separator_line (pyStrip l) = false :=
      fun l hm => h l (by simp [hm])
    simp only [scanDialog, hl]
    by_cases h1 : (pyStrip line).isEmpty
    · simp [h1, ih hrest]
    · simp [h1, ih hrest]

/-! ### Claim C1 -/

/-- C1: for every content string whose bottom-up scan (skipping blank lines)
finds a separator line with a non-blank non-separator line above it,
`has_active_dialog` returns `false` exactly when that decisive line is the
prompt glyph alone or the glyph followed by a space and further text, and
`true` for any other content on that line. -/
theorem claim1_decisive_line_decides (content d : String)
    (h : decisiveLine content = some d) :
    has_active_dialog content = !(isPromptLine d) := by
  unfold has_active_dialog
  by_cases hb : (content.isEmpty || (pyStrip content).isEmpty) = true
  · rw [decisiveLine_eq_none_of_blank content hb] at h
    exact Option.noConfusion h
  · rw [if_neg hb, scanDialog_eq_findDecisive]
    unfold decisiveLine at h
    rw [h]

/-- Witness for C1 at a concrete dialog screen and a concrete idle prompt. -/
theorem claim1_witness :
    decisiveLine "Do you want to proceed?\n──────\n? for shortcuts" =
      some "Do you want to proceed?" ∧
    has_active_dialog "Do you want to proceed?\n──────\n? for shortcuts" = true :=
  ⟨by decide,
   Eq.trans
     (claim1_decisive_line_decides "Do you want to proceed?\n──────\n? for shortcuts"
       "Do you want to proceed?" (by decide))
     (by decide)⟩

/-! ### Claim C8 -/

/-- C8: `has_active_dialog` returns `true` on the empty string, on every
whitespace-only string, and on every content string without a separator
line. -/
theorem claim8_conservative_true :
    has_active_dialog "" = true ∧
    (∀ content : String, (∀ c ∈ content.data, pyIsSpace c) →
      has_active_dialog content = true) ∧
    (∀ content : String,
      (∀ line ∈ pySplitlines content, is_separator_line (pyStrip line) = false) →
      has_active_dialog content = true) := by
  refine ⟨rfl, ?_, ?_⟩
  · intro content h
    have hstr : (pyStrip content).isEmpty = true := by
      rw [String.isEmpty_iff]
      exact pyStrip_eq_empty_of_all content h
    unfold has_active_dialog
    simp [hstr]
  · intro content h
    unfold has_active_dialog
    by_cases hb : (content.isEmpty || (pyStrip content).isEmpty) = true
    · rw [if_pos hb]
    · rw [if_neg hb]
      exact scanDialog_true_of_no_sep _ (fun l hm => h l (List.mem_reverse.mp hm))

/-- Witness for C8 on whitespace-only and separator-free contents. -/
theorem claim8_witness :
    has_active_dialog "   \n  " = true ∧ has_active_dialog "no separator here" = true :=
  ⟨claim8_conservative_true.2.1 "   \n  " (by decide),
   claim8_conservative_true.2.2 "no separator here" (by decide)⟩

/-! ### Claim C2 -/

/-- C2 is false on the code: a record with a parseable timestamp and an
unparseable window index is included, but the parsed timestamp 100 is
replaced by 0 as well — the single `except ValueError` zeroes both fields. -/
theorem claim2_counterexample :
    pyInt "100" = some 100 ∧ pyInt "abc" = none ∧
    hop_record none "%1" "waiting" "100" "/tmp/proj" "main" "abc" =
      some ⟨"%1", "waiting", 0, "/tmp/proj", "main", 0⟩ := by
  decide

/-- C2 (amended): a bulk-query record whose timestamp or window field fails
to parse is still included, but zero is substituted for BOTH integer fields,
discarding a successfully parsed value in the other field. -/
theorem claim2_amended_both_fields_zeroed
    (timestamp_str window_str : String)
    (hfail : (¬ timestamp_str.isEmpty = true ∧ pyInt timestamp_str = none) ∨
             (¬ window_str.isEmpty = true ∧ pyInt window_str = none))
    (pane_id state cwd session : String) (hstate : ¬ state.isEmpty = true) :
    parse_ts_window timestamp_str window_str = (0, 0) ∧
    hop_record none pane_id state timestamp_str cwd session window_str =
      some ⟨pane_id, state, 0, cwd, session, 0⟩ := by
  have hp : parse_ts_window timestamp_str window_str = (0, 0) := by
    unfold parse_ts_window
    rcases hfail with ⟨hne, hnone⟩ | ⟨hne, hnone⟩
    · rw [if_neg hne, hnone]
    · rcases h1 : (if timestamp_str.isEmpty then some 0 else pyInt timestamp_str) with _ | t
      · rfl
      · rw [if_neg hne, hnone]
  refine ⟨hp, ?_⟩
  unfold hop_record
  rw [if_neg hstate, hp]
  rfl

/-- Witness for the amended C2 at the counterexample's input. -/
theorem claim2_witness :
    parse_ts_window "100" "abc" = (0, 0) ∧
    hop_record none "%2" "idle" "100" "/home/u" "dev" "abc" =
      some ⟨"%2", "idle", 0, "/home/u", "dev", 0⟩ :=
  claim2_amended_both_fields_zeroed "100" "abc" (Or.inr ⟨by decide, by decide⟩)
    "%2" "idle" "/home/u" "dev" (by decide)

/-! ### Grouping and sorting lemmas -/

theorem state_of_mem_waiting (panes : List PaneInfo) (x : PaneInfo)
    (hx : x ∈ (group_by_state panes).waiting) : x.state = "waiting" := by
  induction panes with
  | nil => simp [group_by_state] at hx
  | cons q rest ih =>
    simp only [group_by_state] at hx
    by_cases h1 : q.state = "waiting"
    · simp only [if_pos h1] at hx
      rcases List.mem_cons.mp hx with h | h
      · subst h
        exact h1
      · exact ih h
    · by_cases h2 : q.state = "idle"
      · simp only [if_neg h1, if_pos h2] at hx
        exact ih hx
      · simp only [if_neg h1, if_neg h2] at hx
        exact ih hx

theorem state_of_mem_idle (panes : List PaneInfo) (x : PaneInfo)
    (hx : x ∈ (group_by_state panes).idle) : x.state = "idle" := by
  induction panes with
  | nil => simp [group_by_state] at hx
  | cons q rest ih =>
    simp only [group_by_state] at hx
    by_cases h1 : q.state = "waiting"
    · simp only [if_pos h1] at hx
      exact ih hx
    · by_cases h2 : q.state = "idle"
      · simp only [if_neg h1, if_pos h2] at hx
        rcases List.mem_cons.mp hx with h | h
        · subst h
          exact h2
        · exact ih h
      · simp only [if_neg h1, if_neg h2] at hx
        exact ih hx

theorem state_of_mem_active (panes : List PaneInfo) (x : PaneInfo)
    (hx : x ∈ (group_by_state panes).active) :
    x.state ≠ "waiting" ∧ x.state ≠ "idle" := by
  induction panes with
  | nil => simp [group_by_state] at hx
  | cons q rest ih =>
    simp only [group_by_state] at hx
    by_cases h1 : q.state = "waiting"
    · simp only [if_pos h1] at hx
      exact ih hx
    · by_cases h2 : q.state = "idle"
      · simp only [if_neg h1, if_pos h2] at hx
        exact ih hx
      · simp only [if_neg h1, if_neg h2] at hx
        rcases List.mem_cons.mp hx with h | h
        · subst h
          exact ⟨h1, h2⟩
        · exact ih h

theorem mem_active_of_unknown (panes : List PaneInfo) (p : PaneInfo)
    (hp : p ∈ panes) (h1 : p.state ≠ "waiting") (h2 : p.state ≠ "idle") :
    p ∈ (group_by_state panes).active := by
  induction panes with
  | nil => simp at hp
  | cons q rest ih =>
    simp only [group_by_state]
    rcases List.mem_cons.mp hp with h | h
    · subst h
      rw [if_neg h1, if_neg h2]
      exact List.mem_cons_self p _
    · by_cases hq1 : q.state = "waiting"
      · rw [if_pos hq1]
        exact ih h
      · by_cases hq2 : q.state = "idle"
        · rw [if_neg hq1, if_pos hq2]
          exact ih h
        · rw [if_neg hq1, if_neg hq2]
          exact List.mem_cons_of_mem q (ih h)

theorem group_by_state_perm (panes : List PaneInfo) :
    ((group_by_state panes).waiting ++ (group_by_state panes).idle ++
      (group_by_state panes).active).Perm panes := by
  induction panes with
  | nil => exact List.Perm.refl []
  | cons q rest ih =>
    simp only [group_by_state]
    by_cases h1 : q.state = "waiting"
    · simp only [if_pos h1]
      exact (by simpa using ih.cons q)
    · by_cases h2 : q.state = "idle"
      · simp only [if_neg h1, if_pos h2]
        have hmid :
            ((group_by_state rest).waiting ++ q :: (group_by_state rest).idle ++
              (group_by_state rest).active).Perm
              (q :: ((group_by_state rest).waiting ++ (group_by_state rest).idle ++
                (group_by_state rest).active)) := by
          rw [List.append_assoc, List.append_assoc]
          exact List.perm_middle
        exact hmid.trans (ih.cons q)
      · simp only [if_neg h1, if_neg h2]
        have hmid :
            ((group_by_state rest).waiting ++ (group_by_state rest).idle ++
              q :: (group_by_state rest).active).Perm
              (q :: ((group_by_state rest).waiting ++ (group_by_state rest).idle ++
                (group_by_state rest).active)) := List.perm_middle
        exact hmid.trans (ih.cons q)

theorem sort_within_group_waiting (l : List PaneInfo) :
    sort_within_group l "waiting" = List.insertionSort leTs l := by
  unfold sort_within_group
  rw [if_pos rfl]

theorem sort_within_group_other (l : List PaneInfo) (st : String) (h : st ≠ "waiting") :
    sort_within_group l st = List.insertionSort leNegTs l := by
  unfold sort_within_group
  rw [if_neg h]

theorem sort_within_group_nil (st : String) : sort_within_group [] st = [] := by
  unfold sort_within_group
  by_cases h : st = "waiting"
  · rw [if_pos h]
    rfl
  · rw [if_neg h]
    rfl

theorem sort_within_group_length (l : List PaneInfo) (st : String) :
    (sort_within_group l st).length = l.length := by
  by_cases h : st = "waiting"
  · rw [h, sort_within_group_waiting]
    exact (List.perm_insertionSort leTs l).length_eq
  · rw [sort_within_group_other l st h]
    exact (List.perm_insertionSort leNegTs l).length_eq

theorem guard_sort_eq (l : List PaneInfo) (st : String) :
    (if !l.isEmpty then sort_within_group l st else []) = sort_within_group l st := by
  cases l with
  | nil => simp [sort_within_group_nil]
  | cons x xs => simp

theorem get_cycle_group_flat_eq (panes : List PaneInfo) :
    get_cycle_group panes "flat" =
      sort_within_group (group_by_state panes).waiting "waiting" ++
      sort_within_group (group_by_state panes).idle "idle" ++
      sort_within_group (group_by_state panes).active "active" := by
  unfold get_cycle_group
  rw [if_pos rfl]
  rw [guard_sort_eq, guard_sort_eq, guard_sort_eq]

theorem get_cycle_group_priority_eq (panes : List PaneInfo) :
    get_cycle_group panes "priority" =
      (if !(group_by_state panes).waiting.isEmpty then
        sort_within_group (group_by_state panes).waiting "waiting"
      else if !(group_by_state panes).idle.isEmpty then
        sort_within_group (group_by_state panes).idle "idle"
      else if !(group_by_state panes).active.isEmpty then
        sort_within_group (group_by_state panes).active "active"
      else []) := by
  unfold get_cycle_group
  rw [if_neg (by decide : ¬ ("priority" : String) = "flat")]

/-! ### Claim C9 -/

/-- C9: `group_by_state` drops no pane — the three buckets together are a
permutation of the input — every pane with a state other than
waiting/idle/active (indeed, other than waiting/idle) lands in the `active`
bucket, and bucket membership is determined by (mutually exclusive) state
tests, so each pane occurs in exactly one bucket. -/
theorem claim9_partition (panes : List PaneInfo) :
    ((group_by_state panes).waiting ++ (group_by_state panes).idle ++
      (group_by_state panes).active).Perm panes ∧
    (∀ p, p ∈ panes → p.state ≠ "waiting" → p.state ≠ "idle" →
      p ∈ (group_by_state panes).active) ∧
    (∀ p, p ∈ (group_by_state panes).waiting → p.state = "waiting") ∧
    (∀ p, p ∈ (group_by_state panes).idle → p.state = "idle") ∧
    (∀ p, p ∈ (group_by_state panes).active → p.state ≠ "waiting" ∧ p.state ≠ "idle") :=
  ⟨group_by_state_perm panes,
   fun p hp h1 h2 => mem_active_of_unknown panes p hp h1 h2,
   fun p hp => state_of_mem_waiting panes p hp,
   fun p hp => state_of_mem_idle panes p hp,
   fun p hp => state_of_mem_active panes p hp⟩

/-- Witness for C9: a pane with the unknown state "mystery" lands in the
`active` bucket. -/
theorem claim9_witness : paneU ∈ (group_by_state [paneW, paneU]).active :=
  (claim9_partition [paneW, paneU]).2.1 paneU (by decide) (by decide) (by decide)

/-! ### Claim C5 -/

/-- C5: flat-mode `get_cycle_group` is the waiting group sorted ascending by
timestamp, then the idle group sorted descending, then the active group
sorted descending, and its length is the sum of the three tier lengths,
which is the number of input panes. -/
theorem claim5_flat_mode (panes : List PaneInfo) :
    get_cycle_group panes "flat" =
      sort_within_group (group_by_state panes).waiting "waiting" ++
      sort_within_group (group_by_state panes).idle "idle" ++
      sort_within_group (group_by_state panes).active "active" ∧
    List.Sorted leTs (sort_within_group (group_by_state panes).waiting "waiting") ∧
    List.Sorted leNegTs (sort_within_group (group_by_state panes).idle "idle") ∧
    List.Sorted leNegTs (sort_within_group (group_by_state panes).active "active") ∧
    (get_cycle_group panes "flat").length =
      (group_by_state panes).waiting.length + (group_by_state panes).idle.length +
        (group_by_state panes).active.length ∧
    (get_cycle_group panes "flat").length = panes.length := by
  have hlen : (get_cycle_group panes "flat").length =
      (group_by_state panes).waiting.length + (group_by_state panes).idle.length +
        (group_by_state panes).active.length := by
    rw [get_cycle_group_flat_eq]
    simp [sort_within_group_length, Nat.add_assoc]
  refine ⟨get_cycle_group_flat_eq panes, ?_, ?_, ?_, hlen, ?_⟩
  · rw [sort_within_group_waiting]
    exact List.sorted_insertionSort leTs _
  · rw [sort_within_group_other _ _ (by decide)]
    exact List.sorted_insertionSort leNegTs _
  · rw [sort_within_group_other _ _ (by decide)]
    exact List.sorted_insertionSort leNegTs _
  · rw [hlen]
    have hperm := (group_by_state_perm panes).length_eq
    simp only [List.length_append] at hperm
    omega

/-! ### Claim C4 -/

/-- C4: priority-mode `get_cycle_group` returns exactly the sorted contents
of the highest-priority non-empty tier (waiting, else idle, else active),
and is empty exactly when the input is empty. -/
theorem claim4_priority_single_tier (panes : List PaneInfo) :
    ((group_by_state panes).waiting ≠ [] →
      get_cycle_group panes "priority" =
        sort_within_group (group_by_state panes).waiting "waiting") ∧
    ((group_by_state panes).waiting = [] → (group_by_state panes).idle ≠ [] →
      get_cycle_group panes "priority" =
        sort_within_group (group_by_state panes).idle "idle") ∧
    ((group_by_state panes).waiting = [] → (group_by_state panes).idle = [] →
      get_cycle_group panes "priority" =
        sort_within_group (group_by_state panes).active "active") ∧
    (get_cycle_group panes "priority" = [] ↔ panes = []) := by
  refine ⟨?_, ?_, ?_, ?_⟩
  · intro hw
    rw [get_cycle_group_priority_eq]
    simp [List.isEmpty_iff, hw]
  · intro hw hi
    rw [get_cycle_group_priority_eq]
    simp [List.isEmpty_iff, hw, hi]
  · intro hw hi
    rw [get_cycle_group_priority_eq]
    by_cases ha : (group_by_state panes).active = []
    · simp [List.isEmpty_iff, hw, hi, ha, sort_within_group_nil]
    · simp [List.isEmpty_iff, hw, hi, ha]
  · constructor
    · intro hres
      by_contra hne
      have hlen := (group_by_state_perm panes).length_eq
      rw [get_cycle_group_priority_eq] at hres
      by_cases hw : (group_by_state panes).waiting = []
      · by_cases hi : (group_by_state panes).idle = []
        · by_cases ha : (group_by_state panes).active = []
          · rw [hw, hi, ha] at hlen
            simp at hlen
            exact hne (List.eq_nil_of_length_eq_zero hlen.symm)
          · simp [List.isEmpty_iff, hw, hi, ha] at hres
            have := sort_within_group_length (group_by_state panes).active "active"
            rw [hres] at this
            simp at this
            exact ha (List.eq_nil_of_length_eq_zero this.symm)
        · simp [List.isEmpty_iff, hw, hi] at hres
          have := sort_within_group_length (group_by_state panes).idle "idle"
          rw [hres] at this
          simp at this
          exact hi (List.eq_nil_of_length_eq_zero this.symm)
      · simp [List.isEmpty_iff, hw] at hres
        have := sort_within_group_length (group_by_state panes).waiting "waiting"
        rw [hres] at this
        simp at this
        exact hw (List.eq_nil_of_length_eq_zero this.symm)
    · intro hp
      subst hp
      rfl

/-- Witness for C4 at a concrete two-tier pane list. -/
theorem claim4_witness :
    (group_by_state [paneA, paneW]).waiting ≠ [] ∧
    get_cycle_group [paneA, paneW] "priority" =
      sort_within_group (group_by_state [paneA, paneW]).waiting "waiting" :=
  ⟨by decide, (claim4_priority_single_tier [paneA, paneW]).1 (by decide)⟩

/-! ### Stable-sort decomposition lemmas (for C3) -/

theorem orderedInsert_congr (r r' : PaneInfo → PaneInfo → Prop)
    [DecidableRel r] [DecidableRel r'] (p : PaneInfo) (l : List PaneInfo)
    (h : ∀ x ∈ l, r p x ↔ r' p x) :
    List.orderedInsert r p l = List.orderedInsert r' p l := by
  induction l with
  | nil => rfl
  | cons y ys ih =>
    simp only [List.orderedInsert]
    by_cases hy : r p y
    · rw [if_pos hy, if_pos ((h y (by simp)).mp hy)]
    · rw [if_neg hy, if_neg (fun hc => hy ((h y (by simp)).mpr hc))]
      rw [ih (fun x hx => h x (by simp [hx]))]

theorem orderedInsert_append_agree (r r' : PaneInfo → PaneInfo → Prop)
    [DecidableRel r] [DecidableRel r'] (p : PaneInfo) (l₁ l₂ : List PaneInfo)
    (h1 : ∀ x ∈ l₁, r p x ↔ r' p x) (h2 : ∀ x ∈ l₂, r p x) :
    List.orderedInsert r p (l₁ ++ l₂) = List.orderedInsert r' p l₁ ++ l₂ := by
  induction l₁ with
  | nil =>
    simp only [List.nil_append, List.orderedInsert]
    cases l₂ with
    | nil => rfl
    | cons x xs =>
      simp only [List.orderedInsert]
      rw [if_pos (h2 x (by simp))]
      rfl
  | cons y ys ih =>
    simp only [List.cons_append, List.orderedInsert, List.append_eq]
    by_cases hy : r p y
    · rw [if_pos hy, if_pos ((h1 y (by simp)).mp hy)]
      rfl
    · rw [if_neg hy, if_neg (fun hc => hy ((h1 y (by simp)).mpr hc))]
      rw [ih (fun x hx => h1 x (by simp [hx]))]
      rfl

theorem orderedInsert_append_skip (r : PaneInfo → PaneInfo → Prop) [DecidableRel r]
    (p : PaneInfo) (l₀ l : List PaneInfo) (h : ∀ x ∈ l₀, ¬ r p x) :
    List.orderedInsert r p (l₀ ++ l) = l₀ ++ List.orderedInsert r p l := by
  induction l₀ with
  | nil => simp
  | cons y ys ih =>
    simp only [List.cons_append, List.orderedInsert, List.append_eq]
    rw [if_neg (h y (by simp))]
    rw [ih (fun x hx => h x (by simp [hx]))]

theorem sort_key_fst_waiting (p : PaneInfo) (h : p.state = "waiting") :
    (sort_key p).1 = 0 := by
  simp only [sort_key, STATE_PRIORITY]
  rw [if_pos h]
  rfl

theorem sort_key_fst_idle (p : PaneInfo) (h : p.state = "idle") : (sort_key p).1 = 1 := by
  simp only [sort_key, STATE_PRIORITY]
  rw [if_neg (by rw [h]; decide), if_pos h]
  rfl

theorem sort_key_fst_other (p : PaneInfo) (h1 : p.state ≠ "waiting") (h2 : p.state ≠ "idle") :
    (sort_key p).1 = 2 := by
  simp only [sort_key, STATE_PRIORITY]
  rw [if_neg h1, if_neg h2]
  by_cases h3 : p.state = "active"
  · rw [if_pos h3]
    rfl
  · rw [if_neg h3]
    rfl

theorem leKey_iff_leTs (p x : PaneInfo) (hp : p.state = "waiting") (hx : x.state = "waiting") :
    leKey p x ↔ leTs p x := by
  unfold leKey leTs
  have hp2 : (sort_key p).2 = p.timestamp := by simp [sort_key, hp]
  have hx2 : (sort_key x).2 = x.timestamp := by simp [sort_key, hx]
  rw [sort_key_fst_waiting p hp, sort_key_fst_waiting x hx, hp2, hx2]
  constructor
  · rintro (h | ⟨-, h⟩)
    · exact absurd h (lt_irrefl 0)
    · exact h
  · intro h
    exact Or.inr ⟨rfl, h⟩

theorem leKey_iff_leNegTs (p x : PaneInfo) (hp : p.state ≠ "waiting") (hx : x.state ≠ "waiting")
    (hfst : (sort_key p).1 = (sort_key x).1) :
    leKey p x ↔ leNegTs p x := by
  unfold leKey leNegTs
  have hp2 : (sort_key p).2 = -p.timestamp := by simp [sort_key, hp]
  have hx2 : (sort_key x).2 = -x.timestamp := by simp [sort_key, hx]
  rw [hp2, hx2, hfst]
  constructor
  · rintro (h | ⟨-, h⟩)
    · exact absurd h (lt_irrefl _)
    · exact h
  · intro h
    exact Or.inr ⟨rfl, h⟩

theorem not_leKey_of_fst_lt (p x : PaneInfo) (h : (sort_key x).1 < (sort_key p).1) :
    ¬ leKey p x := by
  rintro (h1 | ⟨h1, -⟩)
  · exact absurd h1 (lt_asymm h)
  · rw [h1] at h
    exact lt_irrefl _ h

theorem sort_all_eq_parts (panes : List PaneInfo) :
    sort_all_panes panes =
      List.insertionSort leTs (group_by_state panes).waiting ++
      List.insertionSort leNegTs (group_by_state panes).idle ++
      List.insertionSort leNegTs (group_by_state panes).active := by
  induction panes with
  | nil => rfl
  | cons p rest ih =>
    have hW : ∀ x ∈ List.insertionSort leTs (group_by_state rest).waiting,
        x.state = "waiting" :=
      fun x hx => state_of_mem_waiting rest x ((List.perm_insertionSort leTs _).mem_iff.mp hx)
    have hI : ∀ x ∈ List.insertionSort leNegTs (group_by_state rest).idle, x.state = "idle" :=
      fun x hx => state_of_mem_idle rest x ((List.perm_insertionSort leNegTs _).mem_iff.mp hx)
    have hA : ∀ x ∈ List.insertionSort leNegTs (group_by_state rest).active,
        x.state ≠ "waiting" ∧ x.state ≠ "idle" :=
      fun x hx => state_of_mem_active rest x ((List.perm_insertionSort leNegTs _).mem_iff.mp hx)
    have hL : sort_all_panes (p :: rest) =
        List.orderedInsert leKey p
          (List.insertionSort leTs (group_by_state rest).waiting ++
           List.insertionSort leNegTs (group_by_state rest).idle ++
           List.insertionSort leNegTs (group_by_state rest).active) := by
      unfold sort_all_panes at ih ⊢
      simp only [List.insertionSort]
      rw [ih]
    rw [hL]
    by_cases h1 : p.state = "waiting"
    · have hgw : (group_by_state (p :: rest)).waiting = p :: (group_by_state rest).waiting := by
        simp only [group_by_state, if_pos h1]
      have hgi : (group_by_state (p :: rest)).idle = (group_by_state rest).idle := by
        simp only [group_by_state, if_pos h1]
      have hga : (group_by_state (p :: rest)).active = (group_by_state rest).active := by
        simp only [group_by_state, if_pos h1]
      rw [hgw, hgi, hga]
      simp only [List.insertionSort]
      rw [List.append_assoc, List.append_assoc]
      apply orderedInsert_append_agree
      · exact fun x hx => leKey_iff_leTs p x h1 (hW x hx)
      · intro x hx
        rcases List.mem_append.mp hx with hxm | hxm
        · exact Or.inl (by
            rw [sort_key_fst_waiting p h1, sort_key_fst_idle x (hI x hxm)]
            decide)
        · exact Or.inl (by
            rw [sort_key_fst_waiting p h1, sort_key_fst_other x (hA x hxm).1 (hA x hxm).2]
            decide)
    · by_cases h2 : p.state = "idle"
      · have hgw : (group_by_state (p :: rest)).waiting = (group_by_state rest).waiting := by
          simp only [group_by_state, if_neg h1, if_pos h2]
        have hgi : (group_by_state (p :: rest)).idle = p :: (group_by_state rest).idle := by
          simp only [group_by_state, if_neg h1, if_pos h2]
        have hga : (group_by_state (p :: rest)).active = (group_by_state rest).active := by
          simp only [group_by_state, if_neg h1, if_pos h2]
        rw [hgw, hgi, hga]
        simp only [List.insertionSort]
        rw [List.append_assoc, List.append_assoc]
        rw [orderedInsert_append_skip leKey p _ _ (fun x hx =>
          not_leKey_of_fst_lt p x (by
            rw [sort_key_fst_idle p h2, sort_key_fst_waiting x (hW x hx)]
            decide))]
        rw [orderedInsert_append_agree leKey leNegTs p _ _
          (fun x hx => leKey_iff_leNegTs p x h1
            (by rw [hI x hx]; decide)
            (by rw [sort_key_fst_idle p h2, sort_key_fst_idle x (hI x hx)]))
          (fun x hx => Or.inl (by
            rw [sort_key_fst_idle p h2, sort_key_fst_other x (hA x hx).1 (hA x hx).2]
            decide))]
      · have hgw : (group_by_state (p :: rest)).waiting = (group_by_state rest).waiting := by
          simp only [group_by_state, if_neg h1, if_neg h2]
        have hgi : (group_by_state (p :: rest)).idle = (group_by_state rest).idle := by
          simp only [group_by_state, if_neg h1, if_neg h2]
        have hga : (group_by_state (p :: rest)).active = p :: (group_by_state rest).active := by
          simp only [group_by_state, if_neg h1, if_neg h2]
        rw [hgw, hgi, hga]
        simp only [List.insertionSort]
        rw [orderedInsert_append_skip leKey p _ _ (fun x hx =>
          not_leKey_of_fst_lt p x (by
            rcases List.mem_append.mp hx with hxm | hxm
            · rw [sort_key_fst_other p h1 h2, sort_key_fst_waiting x (hW x hxm)]
              decide
            · rw [sort_key_fst_other p h1 h2, sort_key_fst_idle x (hI x hxm)]
              decide))]
        rw [orderedInsert_congr leKey leNegTs p _ (fun x hx =>
          leKey_iff_leNegTs p x h1 (hA x hx).1
            (by rw [sort_key_fst_other p h1 h2,
                    sort_key_fst_other x (hA x hx).1 (hA x hx).2]))]

/-! ### Claim C3 -/

/-- C3: `sort_all_panes` returns exactly the same sequence as flat-mode
`get_cycle_group`, for every pane list including unknown states. -/
theorem claim3_sort_all_eq_flat (panes : List PaneInfo) :
    sort_all_panes panes = get_cycle_group panes "flat" := by
  rw [get_cycle_group_flat_eq,
      sort_within_group_waiting,
      sort_within_group_other (group_by_state panes).idle "idle" (by decide),
      sort_within_group_other (group_by_state panes).active "active" (by decide),
      sort_all_eq_parts]

/-! ### Claim C6 -/

/-- C6: `validate_waiting_panes` leaves entirely unchanged — same record at
the same position, and no store write attempted — every pane that is not
`waiting`, or whose age is below the threshold, or whose content capture
fails or returns empty. -/
theorem claim6_validate_frame (env : ValidateEnv) (panes : List PaneInfo)
    (i : Nat) (p : PaneInfo) (hp : panes[i]? = some p)
    (hcond : p.state ≠ "waiting" ∨ env.now - p.timestamp < WAITING_STALE_THRESHOLD ∨
      env.capture p.id = "") :
    (validate_waiting_panes env panes).1[i]? = some p ∧
    validate_one env p = (p, []) := by
  have hone : validate_one env p = (p, []) := by
    unfold validate_one
    rcases hcond with h | h | h
    · rw [if_pos h]
    · by_cases h0 : p.state ≠ "waiting"
      · rw [if_pos h0]
      · rw [if_neg h0, if_pos h]
    · by_cases h0 : p.state ≠ "waiting"
      · rw [if_pos h0]
      · rw [if_neg h0]
        by_cases h1 : env.now - p.timestamp < WAITING_STALE_THRESHOLD
        · rw [if_pos h1]
        · rw [if_neg h1, if_pos h]
  refine ⟨?_, hone⟩
  unfold validate_waiting_panes
  rw [List.getElem?_map _ panes i, hp]
  simp [hone]

/-- Witness for C6: an idle pane is untouched even with an old timestamp. -/
theorem claim6_witness :
    (validate_waiting_panes envC6 [paneI]).1[0]? = some paneI ∧
    validate_one envC6 paneI = (paneI, []) :=
  claim6_validate_frame envC6 [paneI] 0 paneI (by decide) (Or.inl (by decide))

/-! ### Claim C10 -/

/-- C10: when the attribute-store write that downgrades a stale waiting pane
fails, the failure is swallowed: the write was attempted but the in-memory
record is unchanged — its state stays "waiting" and its timestamp keeps its
prior value, so there is no partial update. -/
theorem claim10_write_failure (env : ValidateEnv) (p : PaneInfo)
    (hw : p.state = "waiting")
    (hage : ¬ env.now - p.timestamp < WAITING_STALE_THRESHOLD)
    (hcap : ¬ env.capture p.id = "")
    (hdlg : has_active_dialog (env.capture p.id) = false)
    (hfail : env.writeOk p.id = false) :
    validate_one env p = (p, [p.id]) ∧
    (validate_one env p).1.state = "waiting" ∧
    (validate_one env p).1.timestamp = p.timestamp := by
  have hone : validate_one env p = (p, [p.id]) := by
    unfold validate_one
    rw [if_neg (not_not_intro hw), if_neg hage, if_neg hcap,
        if_neg (by simp [hdlg]), if_neg (by simp [hfail])]
  exact ⟨hone, by rw [hone]; exact hw, by rw [hone]⟩

/-- Witness for C10: with a dismissed prompt on screen and a failing write,
the stale waiting pane keeps its state and timestamp. -/
theorem claim10_witness :
    validate_one envC10 paneW = (paneW, [paneW.id]) ∧
    (validate_one envC10 paneW).1.state = "waiting" ∧
    (validate_one envC10 paneW).1.timestamp = paneW.timestamp :=
  claim10_write_failure envC10 paneW (by decide) (by decide) (by decide)
    (by decide) (by decide)

/-! ### Claim C7 -/

theorem pyIndex_eq_none (l : List String) (v : String) (h : ∀ x ∈ l, x ≠ v) :
    pyIndex l v = none := by
  induction l with
  | nil => rfl
  | cons x xs ih =>
    simp only [pyIndex]
    rw [if_neg (h x (by simp))]
    rw [ih (fun y hy => h y (by simp [hy]))]
    rfl

theorem pyIndex_eq_some (l : List String) (v : String) :
    ∀ i : Nat, l[i]? = some v →
      (∀ j, j < i → ∀ x, l[j]? = some x → x ≠ v) →
      pyIndex l v = some i := by
  induction l with
  | nil =>
    intro i hi
    simp at hi
  | cons x xs ih =>
    intro i hi hbefore
    cases i with
    | zero =>
      simp only [List.getElem?_cons_zero, Option.some.injEq] at hi
      simp only [pyIndex]
      rw [if_pos hi]
    | succ j =>
      have hx : x ≠ v := hbefore 0 (Nat.succ_pos j) x (by simp)
      simp only [pyIndex]
      rw [if_neg hx]
      rw [ih j (by simpa using hi)
        (fun j2 hj2 y hy => hbefore (j2 + 1) (Nat.succ_lt_succ hj2) y (by simpa using hy))]
      rfl

/-- C7: for a non-empty cycle group, the `cmd_cycle` selection picks the
element at `(index of current + 1) mod length` when `current` occurs in the
group (at first occurrence index `i`), and the first element when it does
not occur. -/
theorem claim7_next_in_group (group : List PaneInfo) (current : String) :
    (∀ i : Nat, ∀ p : PaneInfo, group[i]? = some p → p.id = current →
      (∀ j, j < i → ∀ q : PaneInfo, group[j]? = some q → q.id ≠ current) →
      next_in_group group current = group[(i + 1) % group.length]? ∧
      group[(i + 1) % group.length]? ≠ none) ∧
    ((∀ p ∈ group, p.id ≠ current) → group ≠ [] →
      next_in_group group current = group[0]? ∧ group[0]? ≠ none) := by
  constructor
  · intro i p hi hpid hbefore
    have hlen : i < group.length := by
      rcases List.getElem?_eq_some.mp hi with ⟨hlt, -⟩
      exact hlt
    have hids : (group.map PaneInfo.id)[i]? = some current := by
      rw [List.getElem?_map PaneInfo.id group i, hi]
      simp [hpid]
    have hidx : pyIndex (group.map PaneInfo.id) current = some i := by
      apply pyIndex_eq_some _ _ i hids
      intro j hj x hx
      rw [List.getElem?_map PaneInfo.id group j] at hx
      rcases Option.map_eq_some'.mp hx with ⟨q, hq, hqx⟩
      rw [← hqx]
      exact hbefore j hj q hq
    have hmod : (i + 1) % group.length < group.length :=
      Nat.mod_lt _ (Nat.lt_of_le_of_lt (Nat.zero_le i) hlen)
    constructor
    · unfold next_in_group
      rw [hidx]
    · rw [List.getElem?_eq_getElem hmod]
      exact Option.noConfusion
  · intro habs hne
    have hidx : pyIndex (group.map PaneInfo.id) current = none := by
      apply pyIndex_eq_none
      intro x hx
      rcases List.mem_map.mp hx with ⟨q, hq, hqx⟩
      rw [← hqx]
      exact habs q hq
    have hlen : 0 < group.length := List.length_pos.mpr hne
    constructor
    · unfold next_in_group
      rw [hidx]
    · rw [List.getElem?_eq_getElem hlen]
      exact Option.noConfusion

/-- Witness for C7: in the group `[%4, %2]`, current `%4` steps to `%2`, and
the absent `%9` falls back to the first element `%4`. -/
theorem claim7_witness :
    next_in_group [paneW, paneW2] "%4" = some paneW2 ∧
    next_in_group [paneW, paneW2] "%9" = some paneW := by
  constructor
  · have h := (claim7_next_in_group [paneW, paneW2] "%4").1 0 paneW (by decide) (by decide)
      (fun j hj q hq => absurd hj (Nat.not_lt_zero j))
    rw [h.1]
    decide
  · have h := (claim7_next_in_group [paneW, paneW2] "%9").2 (by decide) (by decide)
    rw [h.1]
    decide

end ClaudeTmuxHop
